import Mathlib

/-!
Verification development for the GeneticAlgorithms toolkit.

The generational solver (solver.h) and the crossover operator family
(crossovers.h) are embedded shallowly: stochastic operators become explicit
state-passing functions (the pseudo-random generator is treated as an opaque
seeded stream, per the design), `size_t` arithmetic becomes `Nat` arithmetic
with an explicit `% 2^64` where wrap-around matters, and operations that the
Population contract leaves undefined (such as `top()` on an empty population)
become `Option`-valued, with `none` marking the undefined case.
`chromosome.h` and `population.h` are not part of the available sources, so
Chromosome and the Population operations are modelled from the specification.
-/

namespace GeneticAlgorithms

/-- Modelled from the spec: chromosome.h is not among the sources. A
Chromosome (genotype) is a fixed-length bit vector with value semantics,
embedded as a list of booleans whose length is the genotype length N. -/
abbrev Chromosome : Type := List Bool

/-- The scored-genotype pair `Population<...>::Hypothesis`: solver.h accesses
the genotype as `.first` and the rank score as `.second`. -/
abbrev Hypothesis (T : Type) : Type := Chromosome × T

/-- Modelled from the spec: population.h is not among the sources.
`Population::top` returns the member with maximal rank score under the total
order, ties broken by encounter order (first-seen wins); it fails (is
undefined) on an empty population, embedded here as `none`. -/
def Population.top {T : Type} [LinearOrder T] :
    List (Hypothesis T) → Option (Hypothesis T)
  | [] => none
  | h :: t => some (t.foldl (fun b x => if b.2 < x.2 then x else b) h)

/-- Modelled from the spec: population.h is not among the sources.
`Population::push` scores a genotype with the bound Rank operator and inserts
the resulting Hypothesis; no deduplication. -/
def Population.push {T : Type} (rank_func : Chromosome → T)
    (pop : List (Hypothesis T)) (g : Chromosome) : List (Hypothesis T) :=
  pop ++ [(g, rank_func g)]

/-- Modelled from the spec: population.h is not among the sources.
`Population::init` calls the Initializer operator exactly n times on an empty
population, scoring and inserting each produced genotype in call order; the
initializer's mutable random state is passed explicitly. -/
def Population.init {T σI : Type} (rank_func : Chromosome → T)
    (init_func : σI → Chromosome × σI) :
    Nat → σI → List (Hypothesis T) × σI
  | 0, s => ([], s)
  | n + 1, s =>
      let g := init_func s
      let rest := Population.init rank_func init_func n g.2
      ((g.1, rank_func g.1) :: rest.1, rest.2)

/-- Width modulus of the 64-bit `size_t` used by solver.h. -/
def SIZE_T_MOD : Nat := 2 ^ 64

/-- The unsigned expression `population_size - 1uL` of solver.h line 105:
size_t subtraction, which wraps around modulo 2^64. -/
def sizeTSub1 (n : Nat) : Nat :=
  (n % SIZE_T_MOD + (SIZE_T_MOD - 1)) % SIZE_T_MOD

/-- The inner loop of solver.h lines 105-107: for each couple produced by
Selection, apply the crossover operator then the mutation operator and push
the resulting child into the `next` population. -/
def breed {T σC σM : Type}
    (cross_over_func : σC → Chromosome → Chromosome → Chromosome × σC)
    (mutate_func : σM → Chromosome → Chromosome × σM)
    (rank_func : Chromosome → T) :
    List (Chromosome × Chromosome) → List (Hypothesis T) → σC → σM →
      List (Hypothesis T) × σC × σM
  | [], next, sC, sM => (next, sC, sM)
  | c :: cs, next, sC, sM =>
      let child := cross_over_func sC c.1 c.2
      let mutated := mutate_func sM child.1
      breed cross_over_func mutate_func rank_func cs
        (Population.push rank_func next mutated.1) child.2 mutated.2

/-- The loop state of `solve` between generations: the active population, the
tracked best-so-far hypothesis, and the mutable states of the stochastic
operators. The fields `selReqs`, `cxCalls`, `mutCalls` and `trace` are ghost
instrumentation recording the couple count requested from Selection each
generation, the number of crossover and mutation invocations, and the
best-so-far genotype after each generation; they influence nothing. -/
structure GAState (T σS σC σM : Type) where
  current : List (Hypothesis T)
  best : Hypothesis T
  sS : σS
  sC : σC
  sM : σM
  selReqs : List Nat
  cxCalls : Nat
  mutCalls : Nat
  trace : List Chromosome
  deriving DecidableEq

/-- One generation of solver.h lines 105-114: ask Selection for
`population_size - 1uL` couples from the current population, breed one child
per couple into `next`, swap the two populations, reset the old one, update
the best-so-far only on strict improvement (line 110), and push the best
genotype back into the active population (elitism, line 114). `top()` of an
empty population is undefined per the Population contract; the embedding
yields `none` there. -/
def genStep {T σS σC σM : Type} [LinearOrder T] (population_size : Nat)
    (select_func : σS → List (Hypothesis T) → Nat →
      List (Chromosome × Chromosome) × σS)
    (cross_over_func : σC → Chromosome → Chromosome → Chromosome × σC)
    (mutate_func : σM → Chromosome → Chromosome × σM)
    (rank_func : Chromosome → T)
    (st : GAState T σS σC σM) : Option (GAState T σS σC σM) :=
  let req := sizeTSub1 population_size
  let sel := select_func st.sS st.current req
  let b := breed cross_over_func mutate_func rank_func sel.1 [] st.sC st.sM
  match Population.top b.1 with
  | none => none
  | some t =>
      let best2 := if st.best.2 < t.2 then t else st.best
      some { current := Population.push rank_func b.1 best2.1
             best := best2
             sS := sel.2
             sC := b.2.1
             sM := b.2.2
             selReqs := st.selReqs ++ [req]
             cxCalls := st.cxCalls + sel.1.length
             mutCalls := st.mutCalls + sel.1.length
             trace := st.trace ++ [best2.1] }

/-- The generation loop of solver.h line 104: run `genStep` exactly
`num_iterations` times, propagating the undefined case. -/
def runGens {T σS σC σM : Type} [LinearOrder T] (population_size : Nat)
    (select_func : σS → List (Hypothesis T) → Nat →
      List (Chromosome × Chromosome) × σS)
    (cross_over_func : σC → Chromosome → Chromosome → Chromosome × σC)
    (mutate_func : σM → Chromosome → Chromosome × σM)
    (rank_func : Chromosome → T) :
    Nat → GAState T σS σC σM → Option (GAState T σS σC σM)
  | 0, st => some st
  | n + 1, st =>
      match genStep population_size select_func cross_over_func mutate_func
          rank_func st with
      | none => none
      | some st2 =>
          runGens population_size select_func cross_over_func mutate_func
            rank_func n st2

/-- `solve` of solver.h lines 89-117, returning the full final loop state:
seed the population with `population_size` genotypes, record
`best = current.top()`, run the generation loop, and keep the ghost
instrumentation. The genotype the C++ function returns is `best.first` of
this state. -/
def solveFull {T σI σS σC σM : Type} [LinearOrder T]
    (num_iterations population_size : Nat)
    (init_func : σI → Chromosome × σI)
    (select_func : σS → List (Hypothesis T) → Nat →
      List (Chromosome × Chromosome) × σS)
    (cross_over_func : σC → Chromosome → Chromosome → Chromosome × σC)
    (mutate_func : σM → Chromosome → Chromosome × σM)
    (rank_func : Chromosome → T)
    (sI : σI) (sS : σS) (sC : σC) (sM : σM) :
    Option (GAState T σS σC σM) :=
  let ini := Population.init rank_func init_func population_size sI
  match Population.top ini.1 with
  | none => none
  | some best =>
      runGens population_size select_func cross_over_func mutate_func rank_func
        num_iterations
        { current := ini.1
          best := best
          sS := sS
          sC := sC
          sM := sM
          selReqs := []
          cxCalls := 0
          mutCalls := 0
          trace := [] }

/-- `solve` of solver.h: the returned genotype `best.first` (line 116),
`none` when the run reaches an undefined `top()`. -/
def solve {T σI σS σC σM : Type} [LinearOrder T]
    (num_iterations population_size : Nat)
    (init_func : σI → Chromosome × σI)
    (select_func : σS → List (Hypothesis T) → Nat →
      List (Chromosome × Chromosome) × σS)
    (cross_over_func : σC → Chromosome → Chromosome → Chromosome × σC)
    (mutate_func : σM → Chromosome → Chromosome × σM)
    (rank_func : Chromosome → T)
    (sI : σI) (sS : σS) (sC : σC) (sM : σM) : Option Chromosome :=
  (solveFull num_iterations population_size init_func select_func
      cross_over_func mutate_func rank_func sI sS sC sM).map
    fun st => st.best.1

/-- One C++ loop `for (i = start; i < stop; ++i) dest[i] = src[i]` over bit
vectors (crossovers.h lines 62-75), embedded recursively. A write past the
end of `dest` (out of the bitset's bounds in C++) is embedded as a no-op of
`List.set`; a read past the end of `src` yields `false`. -/
def copyFrom (src : List Bool) (stop : Nat) (i : Nat) (dest : List Bool) :
    List Bool :=
  if _h : i < stop then
    copyFrom src stop (i + 1) (dest.set i (src.getD i false))
  else dest
termination_by stop - i

/-- `RandomSplitCrossOver::operator()` (crossovers.h lines 57-78): build a
zero bitset sized from parent `a`, draw a split position from the operator's
integer distribution and a coin from its binary distribution (both consuming
the one shared generator state, in that order), then copy `[0, pos)` from one
parent and `[pos, size)` from the other, the roles picked by the coin. Note
the suffix loop is bounded by `b.size()` in the coin-zero branch and by
`a.size()` in the other, exactly as in the source. -/
def RandomSplitCrossOver {σ : Type} (intDraw : σ → Nat × σ)
    (binDraw : σ → Nat × σ) (s : σ) (a b : Chromosome) : Chromosome × σ :=
  let dest : List Bool := List.replicate a.length false
  let pos := (intDraw s).1
  let s1 := (intDraw s).2
  let c := (binDraw s1).1
  let s2 := (binDraw s1).2
  if c = 0 then
    (copyFrom b b.length pos (copyFrom a pos 0 dest), s2)
  else
    (copyFrom a a.length pos (copyFrom b pos 0 dest), s2)

/-- The loop of `RandomMixCrossOver::operator()` (crossovers.h lines
105-113): for each position `i < a.size()`, flip a coin and copy position `i`
of the chosen parent into `dest`. -/
def mixLoop {σ : Type} (binDraw : σ → Nat × σ) (a b : Chromosome) (i : Nat)
    (dest : List Bool) (s : σ) : List Bool × σ :=
  if _h : i < a.length then
    let c := binDraw s
    mixLoop binDraw a b (i + 1)
      (dest.set i (if c.1 = 0 then a.getD i false else b.getD i false)) c.2
  else (dest, s)
termination_by a.length - i

/-- `RandomMixCrossOver::operator()` (crossovers.h lines 103-115): build a
zero bitset sized from parent `a` and fill every position from a coin-chosen
parent. -/
def RandomMixCrossOver {σ : Type} (binDraw : σ → Nat × σ) (s : σ)
    (a b : Chromosome) : Chromosome × σ :=
  mixLoop binDraw a b 0 (List.replicate a.length false) s

/-- `CrossOverOnProbWrapper::operator()` (crossovers.h lines 141-149): draw a
uniform real in `[0, 1)`; when it is below `_prob` delegate to the wrapped
crossover operator, otherwise draw a coin and return parent `a` or `b`
unmodified. The C++ float draw and threshold are embedded as rationals; the
wrapped operator's own state is threaded alongside the wrapper's generator
state. -/
def CrossOverOnProbWrapper {σ σC : Type} (realDraw : σ → Rat × σ)
    (binDraw : σ → Nat × σ) (prob : Rat)
    (crossover : σC → Chromosome → Chromosome → Chromosome × σC)
    (s : σ) (sC : σC) (a b : Chromosome) : Chromosome × σ × σC :=
  let r := realDraw s
  if r.1 < prob then
    let child := crossover sC a b
    (child.1, r.2, child.2)
  else
    let v := binDraw r.2
    if v.1 = 0 then (a, v.2, sC) else (b, v.2, sC)

/-- Reading a list after a `set`: the written value shows through exactly at
an in-bounds written index. -/
theorem getD_set {α : Type} (l : List α) (i j : Nat) (a d : α) :
    (l.set i a).getD j d = if i = j ∧ j < l.length then a else l.getD j d := by
  rw [List.getD_eq_getElem?_getD, List.getD_eq_getElem?_getD, List.getElem?_set]
  by_cases hij : i = j
  · subst hij
    by_cases hl : i < l.length
    · simp [hl]
    · have hnone : l[i]? = none := List.getElem?_eq_none (by omega)
      simp [hl, hnone]
  · simp [hij]

/-- `copyFrom` never changes the length of the destination bitset. -/
theorem copyFrom_length (src : List Bool) (stop i : Nat) (dest : List Bool) :
    (copyFrom src stop i dest).length = dest.length := by
  rw [copyFrom]
  by_cases h : i < stop
  · rw [dif_pos h, copyFrom_length src stop (i + 1)]
    exact List.length_set dest i _
  · rw [dif_neg h]
termination_by stop - i

/-- Bitwise characterization of `copyFrom`: in-bounds positions of the copied
range come from `src`, every other position keeps the destination's bit. -/
theorem copyFrom_getD (src : List Bool) (stop i : Nat) (dest : List Bool)
    (j : Nat) :
    (copyFrom src stop i dest).getD j false =
      if i ≤ j ∧ j < stop ∧ j < dest.length then src.getD j false
      else dest.getD j false := by
  rw [copyFrom]
  by_cases h : i < stop
  · rw [dif_pos h, copyFrom_getD src stop (i + 1) _ j, List.length_set,
      getD_set]
    by_cases hij : i = j
    · subst hij
      by_cases hl : i < dest.length
      · have h1 : ¬ (i + 1 ≤ i ∧ i < stop ∧ i < dest.length) := by omega
        have h2 : i ≤ i ∧ i < stop ∧ i < dest.length := by omega
        rw [if_neg h1, if_pos ⟨rfl, hl⟩, if_pos h2]
      · have h1 : ¬ (i + 1 ≤ i ∧ i < stop ∧ i < dest.length) := by omega
        have h2 : ¬ (i = i ∧ i < dest.length) := by simp [hl]
        have h3 : ¬ (i ≤ i ∧ i < stop ∧ i < dest.length) := by omega
        rw [if_neg h1, if_neg h2, if_neg h3]
    · have h2 : ¬ (i = j ∧ j < dest.length) := by simp [hij]
      rw [if_neg h2]
      by_cases hc : i + 1 ≤ j ∧ j < stop ∧ j < dest.length
      · have hc2 : i ≤ j ∧ j < stop ∧ j < dest.length := by omega
        rw [if_pos hc, if_pos hc2]
      · have hc2 : ¬ (i ≤ j ∧ j < stop ∧ j < dest.length) := by omega
        rw [if_neg hc, if_neg hc2]
  · rw [dif_neg h]
    have hc : ¬ (i ≤ j ∧ j < stop ∧ j < dest.length) := by omega
    rw [if_neg hc]
termination_by stop - i

/-- `mixLoop` never changes the length of the destination bitset. -/
theorem mixLoop_length {σ : Type} (binDraw : σ → Nat × σ) (a b : Chromosome)
    (i : Nat) (dest : List Bool) (s : σ) :
    (mixLoop binDraw a b i dest s).1.length = dest.length := by
  rw [mixLoop]
  by_cases h : i < a.length
  · rw [dif_pos h, mixLoop_length binDraw a b (i + 1)]
    exact List.length_set dest i _
  · rw [dif_neg h]
termination_by a.length - i

/-- Bitwise characterization of `mixLoop`: each in-bounds position of the
loop's range ends up holding the bit of one of the two parents, and every
other position keeps the destination's bit. -/
theorem mixLoop_getD {σ : Type} (binDraw : σ → Nat × σ) (a b : Chromosome)
    (i : Nat) (dest : List Bool) (s : σ) (j : Nat) :
    ((i ≤ j ∧ j < a.length ∧ j < dest.length) →
        ((mixLoop binDraw a b i dest s).1.getD j false = a.getD j false ∨
         (mixLoop binDraw a b i dest s).1.getD j false = b.getD j false))
  ∧ (¬ (i ≤ j ∧ j < a.length) →
        (mixLoop binDraw a b i dest s).1.getD j false = dest.getD j false) := by
  rw [mixLoop]
  by_cases h : i < a.length
  · rw [dif_pos h]
    have ih := mixLoop_getD binDraw a b (i + 1)
      (dest.set i (if (binDraw s).1 = 0 then a.getD i false else b.getD i false))
      (binDraw s).2 j
    constructor
    · intro hj
      by_cases hij : i = j
      · subst hij
        have he := ih.2 (by omega)
        rw [he, getD_set, if_pos ⟨rfl, hj.2.2⟩]
        by_cases hcoin : (binDraw s).1 = 0
        · left; rw [if_pos hcoin]
        · right; rw [if_neg hcoin]
      · exact ih.1 ⟨by omega, hj.2.1, by rw [List.length_set]; exact hj.2.2⟩
    · intro hj
      have he := ih.2 (by omega)
      rw [he, getD_set, if_neg (by omega)]
  · rw [dif_neg h]
    exact ⟨fun hj => absurd hj (by omega), fun _ => rfl⟩
termination_by a.length - i

/-- `Population.init` produces exactly n scored members. -/
theorem Population.init_length {T σI : Type} (rank_func : Chromosome → T)
    (init_func : σI → Chromosome × σI) (n : Nat) (s : σI) :
    (Population.init rank_func init_func n s).1.length = n := by
  induction n generalizing s with
  | zero => rfl
  | succ n ih => simp [Population.init, ih]

/-- `Population.top` is defined on every non-empty population. -/
theorem Population.top_isSome {T : Type} [LinearOrder T]
    (pop : List (Hypothesis T)) (h : pop ≠ []) :
    ∃ t, Population.top pop = some t := by
  cases pop with
  | nil => exact absurd rfl h
  | cons x xs => exact ⟨_, rfl⟩

/-- `breed` pushes exactly one child per couple. -/
theorem breed_length {T σC σM : Type}
    (cross_over_func : σC → Chromosome → Chromosome → Chromosome × σC)
    (mutate_func : σM → Chromosome → Chromosome × σM)
    (rank_func : Chromosome → T)
    (couples : List (Chromosome × Chromosome)) :
    ∀ (next : List (Hypothesis T)) (sC : σC) (sM : σM),
      (breed cross_over_func mutate_func rank_func couples next sC sM).1.length
        = next.length + couples.length := by
  induction couples with
  | nil => intro next sC sM; simp [breed]
  | cons c cs ih =>
      intro next sC sM
      rw [breed, ih]
      simp [Population.push]
      omega

/-- Eliminating a successful generation step: the new generation's top must
exist, and the next state is determined by it and the strict-improvement
test of solver.h line 110. -/
theorem genStep_some_elim {T σS σC σM : Type} [LinearOrder T]
    (population_size : Nat)
    (select_func : σS → List (Hypothesis T) → Nat →
      List (Chromosome × Chromosome) × σS)
    (cross_over_func : σC → Chromosome → Chromosome → Chromosome × σC)
    (mutate_func : σM → Chromosome → Chromosome × σM)
    (rank_func : Chromosome → T)
    (st st' : GAState T σS σC σM)
    (h : genStep population_size select_func cross_over_func mutate_func
        rank_func st = some st') :
    ∃ t, Population.top (breed cross_over_func mutate_func rank_func
          (select_func st.sS st.current (sizeTSub1 population_size)).1 []
          st.sC st.sM).1 = some t ∧
      st' = { current := Population.push rank_func
                (breed cross_over_func mutate_func rank_func
                  (select_func st.sS st.current (sizeTSub1 population_size)).1
                  [] st.sC st.sM).1
                (if st.best.2 < t.2 then t else st.best).1
              best := if st.best.2 < t.2 then t else st.best
              sS := (select_func st.sS st.current
                (sizeTSub1 population_size)).2
              sC := (breed cross_over_func mutate_func rank_func
                (select_func st.sS st.current (sizeTSub1 population_size)).1
                [] st.sC st.sM).2.1
              sM := (breed cross_over_func mutate_func rank_func
                (select_func st.sS st.current (sizeTSub1 population_size)).1
                [] st.sC st.sM).2.2
              selReqs := st.selReqs ++ [sizeTSub1 population_size]
              cxCalls := st.cxCalls + (select_func st.sS st.current
                (sizeTSub1 population_size)).1.length
              mutCalls := st.mutCalls + (select_func st.sS st.current
                (sizeTSub1 population_size)).1.length
              trace := st.trace ++
                [(if st.best.2 < t.2 then t else st.best).1] } := by
  simp only [genStep] at h
  split at h
  · exact absurd h (by simp)
  · next t heq =>
      refine ⟨t, heq, ?_⟩
      exact (Option.some.injEq _ _ ▸ h).symm

/-- The strict-improvement update never lowers the tracked best rank. -/
theorem genStep_best_le {T σS σC σM : Type} [LinearOrder T]
    (population_size : Nat)
    (select_func : σS → List (Hypothesis T) → Nat →
      List (Chromosome × Chromosome) × σS)
    (cross_over_func : σC → Chromosome → Chromosome → Chromosome × σC)
    (mutate_func : σM → Chromosome → Chromosome × σM)
    (rank_func : Chromosome → T)
    (st st' : GAState T σS σC σM)
    (h : genStep population_size select_func cross_over_func mutate_func
        rank_func st = some st') :
    st.best.2 ≤ st'.best.2 := by
  obtain ⟨t, _, hst⟩ := genStep_some_elim population_size select_func
    cross_over_func mutate_func rank_func st st' h
  subst hst
  by_cases hlt : st.best.2 < t.2
  · simp only [if_pos hlt]
    exact le_of_lt hlt
  · simp only [if_neg hlt]
    exact le_refl _

/-- Across any number of generations the tracked best rank never decreases. -/
theorem runGens_best_le {T σS σC σM : Type} [LinearOrder T]
    (population_size : Nat)
    (select_func : σS → List (Hypothesis T) → Nat →
      List (Chromosome × Chromosome) × σS)
    (cross_over_func : σC → Chromosome → Chromosome → Chromosome × σC)
    (mutate_func : σM → Chromosome → Chromosome × σM)
    (rank_func : Chromosome → T)
    (k : Nat) (st st' : GAState T σS σC σM)
    (h : runGens population_size select_func cross_over_func mutate_func
        rank_func k st = some st') :
    st.best.2 ≤ st'.best.2 := by
  induction k generalizing st with
  | zero =>
      simp only [runGens, Option.some.injEq] at h
      rw [h]
  | succ n ih =>
      rw [runGens] at h
      split at h
      · exact absurd h (by simp)
      · next st2 hg =>
          exact le_trans
            (genStep_best_le population_size select_func cross_over_func
              mutate_func rank_func st st2 hg) (ih st2 h)

/-- In the size_t range, `population_size - 1uL` is ordinary subtraction as
long as the documented precondition `population_size ≥ 1` holds. -/
theorem sizeTSub1_eq_sub (n : Nat) (h1 : 1 ≤ n) (h2 : n < SIZE_T_MOD) :
    sizeTSub1 n = n - 1 := by
  unfold sizeTSub1
  rw [Nat.mod_eq_of_lt h2]
  have hM : 0 < SIZE_T_MOD := by decide
  have he : n + (SIZE_T_MOD - 1) = (n - 1) + 1 * SIZE_T_MOD := by omega
  rw [he, Nat.add_mul_mod_self_right, Nat.mod_eq_of_lt (by omega)]

/-- A deterministic test Initializer producing the genotype [true, false]. -/
def cInit : Unit → Chromosome × Unit := fun s => ([true, false], s)

/-- A deterministic test Selection producing exactly the requested number of
couples. -/
def cSelect : Unit → List (Hypothesis Int) → Nat →
    List (Chromosome × Chromosome) × Unit :=
  fun s _hyps n => (List.replicate n ([true, false], [false, true]), s)

/-- A deterministic test CrossOver returning the first parent. -/
def cCross : Unit → Chromosome → Chromosome → Chromosome × Unit :=
  fun s a _b => (a, s)

/-- A deterministic test Mutation returning its input unchanged. -/
def cMut : Unit → Chromosome → Chromosome × Unit := fun s g => (g, s)

/-- A test Rank counting set bits. -/
def cRank : Chromosome → Int := fun g => Int.ofNat (g.count true)

/-- A concrete mid-run solver state used by concrete instantiations. -/
def cStA : GAState Int Unit Unit Unit :=
  { current := [([true, false], 1), ([false, true], 1)]
    best := ([true, false], 1)
    sS := ()
    sC := ()
    sM := ()
    selReqs := []
    cxCalls := 0
    mutCalls := 0
    trace := [] }

/-- The state one generation step after `cStA` with population size 2 and the
deterministic test operators. -/
def cStB : GAState Int Unit Unit Unit :=
  { current := [([true, false], 1), ([true, false], 1)]
    best := ([true, false], 1)
    sS := ()
    sC := ()
    sM := ()
    selReqs := [1]
    cxCalls := 1
    mutCalls := 1
    trace := [[true, false]] }

/-- Claim C1: in every run of solve the tracked best-so-far hypothesis is
replaced exactly when the new generation's top rank strictly exceeds the
recorded best's rank (solver.h lines 110-112), so a rank tie never overwrites
the recorded best, and best.rank is non-decreasing across any number of
generations. -/
theorem solve_best_monotone_strict_update {T σS σC σM : Type} [LinearOrder T]
    (population_size : Nat)
    (select_func : σS → List (Hypothesis T) → Nat →
      List (Chromosome × Chromosome) × σS)
    (cross_over_func : σC → Chromosome → Chromosome → Chromosome × σC)
    (mutate_func : σM → Chromosome → Chromosome × σM)
    (rank_func : Chromosome → T) :
    (∀ st st' : GAState T σS σC σM,
        genStep population_size select_func cross_over_func mutate_func
            rank_func st = some st' →
        ∃ t, Population.top (breed cross_over_func mutate_func rank_func
              (select_func st.sS st.current (sizeTSub1 population_size)).1 []
              st.sC st.sM).1 = some t ∧
          (st.best.2 < t.2 → st'.best = t) ∧
          (¬ st.best.2 < t.2 → st'.best = st.best) ∧
          st.best.2 ≤ st'.best.2)
  ∧ (∀ (k : Nat) (st st' : GAState T σS σC σM),
        runGens population_size select_func cross_over_func mutate_func
            rank_func k st = some st' →
        st.best.2 ≤ st'.best.2) := by
  constructor
  · intro st st' h
    obtain ⟨t, htop, hst⟩ := genStep_some_elim population_size select_func
      cross_over_func mutate_func rank_func st st' h
    refine ⟨t, htop, ?_, ?_,
      genStep_best_le population_size select_func cross_over_func mutate_func
        rank_func st st' h⟩
    · intro hlt
      rw [hst]
      simp only [if_pos hlt]
    · intro hlt
      rw [hst]
      simp only [if_neg hlt]
  · intro k st st' h
    exact runGens_best_le population_size select_func cross_over_func
      mutate_func rank_func k st st' h

/-- Witness for claim C1 at a concrete one-generation run. -/
theorem solve_best_monotone_strict_update_witness :
    cStA.best.2 ≤ cStB.best.2 :=
  (solve_best_monotone_strict_update 2 cSelect cCross cMut cRank).2 1 cStA
    cStB (by decide)

/-- Claim C2 counterexample: with population_size = 1 and num_iterations = 1
the seeding-phase top exists, yet solve does not return it. Selection is
asked for 0 couples, so after the swap the active population is empty and the
generation step reads top() of an empty population, which the Population
contract leaves undefined; the embedded run therefore yields none instead of
the seeding-phase top genotype. -/
theorem solve_pop_one_counterexample :
    Population.top (Population.init cRank cInit 1 ()).1
      = some ([true, false], 1)
  ∧ solve 1 1 cInit cSelect cCross cMut cRank () () () () = none := by
  constructor
  · decide
  · decide

/-- Claim C2 (amended): with population_size = 1, Selection is asked for
exactly 0 couples each generation (so the crossover and mutation operators
are never invoked and their states are untouched); with num_iterations = 0
solve returns the seeding-phase top genotype; but for num_iterations ≥ 1 the
generation step reads top() of the empty swapped-in population — undefined
under the Population contract — so the embedded solve yields none rather than
the seeding-phase top. -/
theorem solve_pop_one_amended {T σI σS σC σM : Type} [LinearOrder T]
    (init_func : σI → Chromosome × σI)
    (select_func : σS → List (Hypothesis T) → Nat →
      List (Chromosome × Chromosome) × σS)
    (cross_over_func : σC → Chromosome → Chromosome → Chromosome × σC)
    (mutate_func : σM → Chromosome → Chromosome × σM)
    (rank_func : Chromosome → T)
    (sI : σI) (sS : σS) (sC : σC) (sM : σM)
    (hsel : ∀ s hyps n, (select_func s hyps n).1.length = n) :
    sizeTSub1 1 = 0
  ∧ (∀ st : GAState T σS σC σM,
        (select_func st.sS st.current (sizeTSub1 1)).1 = []
      ∧ breed cross_over_func mutate_func rank_func
          (select_func st.sS st.current (sizeTSub1 1)).1 [] st.sC st.sM
          = ([], st.sC, st.sM)
      ∧ genStep 1 select_func cross_over_func mutate_func rank_func st = none)
  ∧ solve 0 1 init_func select_func cross_over_func mutate_func rank_func
      sI sS sC sM
      = (Population.top (Population.init rank_func init_func 1 sI).1).map
          (fun h => h.1)
  ∧ (∀ k, 1 ≤ k →
      solve k 1 init_func select_func cross_over_func mutate_func rank_func
        sI sS sC sM = none) := by
  have hzero : sizeTSub1 1 = 0 := by decide
  have hcpl : ∀ (s : σS) (hyps : List (Hypothesis T)),
      (select_func s hyps (sizeTSub1 1)).1 = [] := by
    intro s hyps
    have hl := hsel s hyps (sizeTSub1 1)
    rw [hzero] at hl
    exact List.length_eq_zero.mp hl
  have hgen : ∀ st : GAState T σS σC σM,
      genStep 1 select_func cross_over_func mutate_func rank_func st
        = none := by
    intro st
    simp only [genStep]
    rw [hcpl st.sS st.current]
    rfl
  refine ⟨hzero, fun st => ⟨hcpl st.sS st.current, ?_, hgen st⟩, ?_, ?_⟩
  · rw [hcpl st.sS st.current]
    rfl
  · cases htop : Population.top (Population.init rank_func init_func 1 sI).1
      with
    | none => simp [solve, solveFull, htop]
    | some t => simp [solve, solveFull, htop, runGens]
  · intro k hk
    obtain ⟨m, rfl⟩ : ∃ m, k = m + 1 := ⟨k - 1, by omega⟩
    cases htop : Population.top (Population.init rank_func init_func 1 sI).1
      with
    | none => simp [solve, solveFull, htop]
    | some t => simp [solve, solveFull, htop, runGens, hgen]

/-- Witness for claim C2 (amended) at a concrete input. -/
theorem solve_pop_one_amended_witness :
    solve 3 1 cInit cSelect cCross cMut cRank () () () () = none :=
  (solve_pop_one_amended cInit cSelect cCross cMut cRank () () () ()
      (fun s hyps n => by simp [cSelect])).2.2.2 3 (by omega)

/-- Claim C3: with num_iterations = 0 and population_size = n ≥ 1, solve
returns exactly the top genotype of the freshly initialized population of
size n, and neither Selection nor CrossOver nor Mutation is ever invoked: the
final state records no Selection request, zero crossover and mutation calls,
and the corresponding operator states are untouched. -/
theorem solve_zero_iterations {T σI σS σC σM : Type} [LinearOrder T]
    (n : Nat) (init_func : σI → Chromosome × σI)
    (select_func : σS → List (Hypothesis T) → Nat →
      List (Chromosome × Chromosome) × σS)
    (cross_over_func : σC → Chromosome → Chromosome → Chromosome × σC)
    (mutate_func : σM → Chromosome → Chromosome × σM)
    (rank_func : Chromosome → T)
    (sI : σI) (sS : σS) (sC : σC) (sM : σM) (hn : 1 ≤ n) :
    ∃ st : GAState T σS σC σM,
      solveFull 0 n init_func select_func cross_over_func mutate_func
        rank_func sI sS sC sM = some st
    ∧ Population.top (Population.init rank_func init_func n sI).1
        = some st.best
    ∧ st.current = (Population.init rank_func init_func n sI).1
    ∧ st.current.length = n
    ∧ solve 0 n init_func select_func cross_over_func mutate_func rank_func
        sI sS sC sM = some st.best.1
    ∧ st.selReqs = [] ∧ st.cxCalls = 0 ∧ st.mutCalls = 0
    ∧ st.sS = sS ∧ st.sC = sC ∧ st.sM = sM := by
  have hlen := Population.init_length rank_func init_func n sI
  have hne : (Population.init rank_func init_func n sI).1 ≠ [] := by
    intro he
    rw [he] at hlen
    simp at hlen
    omega
  obtain ⟨t, htop⟩ := Population.top_isSome _ hne
  refine ⟨{ current := (Population.init rank_func init_func n sI).1
            best := t
            sS := sS
            sC := sC
            sM := sM
            selReqs := []
            cxCalls := 0
            mutCalls := 0
            trace := [] }, ?_, ?_, rfl, hlen, ?_, rfl, rfl, rfl, rfl, rfl,
    rfl⟩
  · simp [solveFull, htop, runGens]
  · exact htop
  · simp [solve, solveFull, htop, runGens]

/-- Witness for claim C3 at a concrete input of population size 2. -/
theorem solve_zero_iterations_witness :
    ∃ st : GAState Int Unit Unit Unit,
      solveFull 0 2 cInit cSelect cCross cMut cRank () () () () = some st
    ∧ Population.top (Population.init cRank cInit 2 ()).1 = some st.best
    ∧ st.current = (Population.init cRank cInit 2 ()).1
    ∧ st.current.length = 2
    ∧ solve 0 2 cInit cSelect cCross cMut cRank () () () ()
        = some st.best.1
    ∧ st.selReqs = [] ∧ st.cxCalls = 0 ∧ st.mutCalls = 0
    ∧ st.sS = () ∧ st.sC = () ∧ st.sM = () :=
  solve_zero_iterations 2 cInit cSelect cCross cMut cRank () () () ()
    (by omega)

/-- Claim C4: assuming Selection returns exactly the requested number of
couples, after the elitism push of each successful generation step the active
population holds exactly population_size members: population_size - 1
children bred from the couples plus the re-inserted best-so-far genotype. -/
theorem population_size_after_elitism {T σS σC σM : Type} [LinearOrder T]
    (population_size : Nat)
    (select_func : σS → List (Hypothesis T) → Nat →
      List (Chromosome × Chromosome) × σS)
    (cross_over_func : σC → Chromosome → Chromosome → Chromosome × σC)
    (mutate_func : σM → Chromosome → Chromosome × σM)
    (rank_func : Chromosome → T)
    (h1 : 1 ≤ population_size) (h2 : population_size < SIZE_T_MOD)
    (hsel : ∀ s hyps n, (select_func s hyps n).1.length = n)
    (st st' : GAState T σS σC σM)
    (h : genStep population_size select_func cross_over_func mutate_func
        rank_func st = some st') :
    st'.current.length = population_size
  ∧ ∃ children : List (Hypothesis T),
      st'.current = children ++ [(st'.best.1, rank_func st'.best.1)]
    ∧ children.length = population_size - 1 := by
  obtain ⟨t, htop, hst⟩ := genStep_some_elim population_size select_func
    cross_over_func mutate_func rank_func st st' h
  have hsub : sizeTSub1 population_size = population_size - 1 :=
    sizeTSub1_eq_sub population_size h1 h2
  have hb := breed_length cross_over_func mutate_func rank_func
    (select_func st.sS st.current (sizeTSub1 population_size)).1 [] st.sC
    st.sM
  rw [hsel] at hb
  subst hst
  constructor
  · simp only [Population.push, List.length_append, List.length_cons,
      List.length_nil]
    rw [hb, hsub]
    simp only [List.length_nil]
    omega
  · refine ⟨_, rfl, ?_⟩
    rw [hb, hsub]
    simp

/-- Witness for claim C4 at a concrete one-generation step with population
size 2. -/
theorem population_size_after_elitism_witness :
    cStB.current.length = 2
  ∧ ∃ children : List (Hypothesis Int),
      cStB.current = children ++ [(cStB.best.1, cRank cStB.best.1)]
    ∧ children.length = 1 :=
  population_size_after_elitism 2 cSelect cCross cMut cRank (by omega)
    (by decide) (fun s hyps n => by simp [cSelect]) cStA cStB (by decide)

/-- A test real draw always yielding one half. -/
def cRealHalf : Unit → Rat × Unit := fun s => (1 / 2, s)

/-- A test binary draw always yielding 0. -/
def cBin0 : Unit → Nat × Unit := fun s => (0, s)

/-- A test integer draw always yielding 1. -/
def cInt1 : Unit → Nat × Unit := fun s => (1, s)

/-- Claim C5: the probability-gated crossover wrapper with prob = 1.0 always
delegates to the wrapped crossover operator on the same parents and the same
internal state (output and wrapped-operator state match bit-for-bit), and
with prob = 0.0 it always returns one of the two parents unmodified. The
uniform draw is assumed inside the distribution's range [0, 1). -/
theorem cross_over_on_prob_bounds {σ σC : Type} (realDraw : σ → Rat × σ)
    (binDraw : σ → Nat × σ)
    (crossover : σC → Chromosome → Chromosome → Chromosome × σC)
    (s : σ) (sC : σC) (a b : Chromosome)
    (hr : 0 ≤ (realDraw s).1 ∧ (realDraw s).1 < 1) :
    CrossOverOnProbWrapper realDraw binDraw 1 crossover s sC a b
      = ((crossover sC a b).1, (realDraw s).2, (crossover sC a b).2)
  ∧ ((CrossOverOnProbWrapper realDraw binDraw 0 crossover s sC a b).1 = a
   ∨ (CrossOverOnProbWrapper realDraw binDraw 0 crossover s sC a b).1 = b)
    := by
  constructor
  · simp only [CrossOverOnProbWrapper, if_pos hr.2]
  · simp only [CrossOverOnProbWrapper, if_neg (not_lt.mpr hr.1)]
    by_cases hc : (binDraw (realDraw s).2).1 = 0
    · left
      rw [if_pos hc]
    · right
      rw [if_neg hc]

/-- Witness for claim C5 at concrete draws and parents. -/
theorem cross_over_on_prob_bounds_witness :
    CrossOverOnProbWrapper cRealHalf cBin0 1 cCross () () [true] [false]
      = ((cCross () [true] [false]).1, (cRealHalf ()).2,
          (cCross () [true] [false]).2)
  ∧ ((CrossOverOnProbWrapper cRealHalf cBin0 0 cCross () () [true]
        [false]).1 = [true]
   ∨ (CrossOverOnProbWrapper cRealHalf cBin0 0 cCross () () [true]
        [false]).1 = [false]) :=
  cross_over_on_prob_bounds cRealHalf cBin0 cCross () () [true] [false]
    (by constructor <;> norm_num [cRealHalf])

/-- Claim C6: for parents of common length N and a drawn split position in
[0, N-1], the split crossover's child has length N and consists of exactly
one parent's bits on [0, p) followed by the other parent's bits on [p, N),
with no further mixing, the roles fixed symmetrically by the drawn coin. -/
theorem random_split_cross_over_reconstruction {σ : Type}
    (intDraw binDraw : σ → Nat × σ) (s : σ) (a b : Chromosome) (N : Nat)
    (ha : a.length = N) (hb : b.length = N) (hpos : (intDraw s).1 < N) :
    ∃ p, p < N
    ∧ (RandomSplitCrossOver intDraw binDraw s a b).1.length = N
    ∧ (((binDraw (intDraw s).2).1 = 0 →
          (∀ i, i < p →
            (RandomSplitCrossOver intDraw binDraw s a b).1.getD i false
              = a.getD i false)
        ∧ (∀ i, p ≤ i → i < N →
            (RandomSplitCrossOver intDraw binDraw s a b).1.getD i false
              = b.getD i false))
     ∧ ((binDraw (intDraw s).2).1 ≠ 0 →
          (∀ i, i < p →
            (RandomSplitCrossOver intDraw binDraw s a b).1.getD i false
              = b.getD i false)
        ∧ (∀ i, p ≤ i → i < N →
            (RandomSplitCrossOver intDraw binDraw s a b).1.getD i false
              = a.getD i false))) := by
  have hina : (copyFrom a (intDraw s).1 0
      (List.replicate a.length false)).length = a.length := by
    rw [copyFrom_length, List.length_replicate]
  have hinb : (copyFrom b (intDraw s).1 0
      (List.replicate a.length false)).length = a.length := by
    rw [copyFrom_length, List.length_replicate]
  refine ⟨(intDraw s).1, hpos, ?_, ?_, ?_⟩
  · simp only [RandomSplitCrossOver]
    by_cases hc : (binDraw (intDraw s).2).1 = 0
    · rw [if_pos hc]
      show (copyFrom b b.length (intDraw s).1
        (copyFrom a (intDraw s).1 0
          (List.replicate a.length false))).length = N
      rw [copyFrom_length, hina, ha]
    · rw [if_neg hc]
      show (copyFrom a a.length (intDraw s).1
        (copyFrom b (intDraw s).1 0
          (List.replicate a.length false))).length = N
      rw [copyFrom_length, hinb, ha]
  · intro hc
    constructor
    · intro i hip
      simp only [RandomSplitCrossOver]
      rw [if_pos hc]
      show (copyFrom b b.length (intDraw s).1
        (copyFrom a (intDraw s).1 0
          (List.replicate a.length false))).getD i false = a.getD i false
      rw [copyFrom_getD, hina, hb]
      rw [if_neg (by omega)]
      rw [copyFrom_getD, List.length_replicate]
      rw [if_pos (by omega)]
    · intro i hpi hiN
      simp only [RandomSplitCrossOver]
      rw [if_pos hc]
      show (copyFrom b b.length (intDraw s).1
        (copyFrom a (intDraw s).1 0
          (List.replicate a.length false))).getD i false = b.getD i false
      rw [copyFrom_getD, hina, hb]
      rw [if_pos (by omega)]
  · intro hc
    constructor
    · intro i hip
      simp only [RandomSplitCrossOver]
      rw [if_neg hc]
      show (copyFrom a a.length (intDraw s).1
        (copyFrom b (intDraw s).1 0
          (List.replicate a.length false))).getD i false = b.getD i false
      rw [copyFrom_getD, hinb, ha]
      rw [if_neg (by omega)]
      rw [copyFrom_getD, List.length_replicate]
      rw [if_pos (by omega)]
    · intro i hpi hiN
      simp only [RandomSplitCrossOver]
      rw [if_neg hc]
      show (copyFrom a a.length (intDraw s).1
        (copyFrom b (intDraw s).1 0
          (List.replicate a.length false))).getD i false = a.getD i false
      rw [copyFrom_getD, hinb, ha]
      rw [if_pos (by omega)]

/-- Witness for claim C6 at concrete draws (split position 1, coin 0) and
parents of length 2. -/
theorem random_split_cross_over_reconstruction_witness :
    ∃ p, p < 2
    ∧ (RandomSplitCrossOver cInt1 cBin0 () [true, true]
        [false, false]).1.length = 2
    ∧ (((cBin0 (cInt1 ()).2).1 = 0 →
          (∀ i, i < p →
            (RandomSplitCrossOver cInt1 cBin0 () [true, true]
              [false, false]).1.getD i false
              = List.getD [true, true] i false)
        ∧ (∀ i, p ≤ i → i < 2 →
            (RandomSplitCrossOver cInt1 cBin0 () [true, true]
              [false, false]).1.getD i false
              = List.getD [false, false] i false))
     ∧ ((cBin0 (cInt1 ()).2).1 ≠ 0 →
          (∀ i, i < p →
            (RandomSplitCrossOver cInt1 cBin0 () [true, true]
              [false, false]).1.getD i false
              = List.getD [false, false] i false)
        ∧ (∀ i, p ≤ i → i < 2 →
            (RandomSplitCrossOver cInt1 cBin0 () [true, true]
              [false, false]).1.getD i false
              = List.getD [true, true] i false))) :=
  random_split_cross_over_reconstruction cInt1 cBin0 () [true, true]
    [false, false] 2 (by decide) (by decide) (by decide)

/-- Claim C7: for parents of common length N, the mix crossover's child has
length N and every one of its bits comes from one of the two parents at the
same position. -/
theorem random_mix_cross_over_membership {σ : Type} (binDraw : σ → Nat × σ)
    (s : σ) (a b : Chromosome) (N : Nat) (ha : a.length = N)
    (hb : b.length = N) :
    (RandomMixCrossOver binDraw s a b).1.length = N
  ∧ ∀ i, i < N →
      (RandomMixCrossOver binDraw s a b).1.getD i false = a.getD i false
    ∨ (RandomMixCrossOver binDraw s a b).1.getD i false = b.getD i false := by
  constructor
  · simp only [RandomMixCrossOver, mixLoop_length, List.length_replicate]
    exact ha
  · intro i hi
    exact (mixLoop_getD binDraw a b 0 (List.replicate a.length false) s i).1
      ⟨Nat.zero_le i, by omega, by rw [List.length_replicate]; omega⟩

/-- Witness for claim C7 at a concrete draw and parents of length 2. -/
theorem random_mix_cross_over_membership_witness :
    (RandomMixCrossOver cBin0 () [true, false] [false, true]).1.length = 2
  ∧ ∀ i, i < 2 →
      (RandomMixCrossOver cBin0 () [true, false] [false, true]).1.getD i false
        = List.getD [true, false] i false
    ∨ (RandomMixCrossOver cBin0 () [true, false] [false, true]).1.getD i false
        = List.getD [false, true] i false :=
  random_mix_cross_over_membership cBin0 () [true, false] [false, true] 2
    (by decide) (by decide)

/-- Claim C8: solve is deterministic: two runs with num_iterations = 5 and
population_size = 1 constructed identically — same operators with equal
initial operator states, i.e. an equal fixed seed for every stochastic
operator — produce identical outcomes, in particular bit-identical sequences
of per-generation best genotypes. -/
theorem solve_determinism {T σI σS σC σM : Type} [LinearOrder T]
    (init_func : σI → Chromosome × σI)
    (select_func : σS → List (Hypothesis T) → Nat →
      List (Chromosome × Chromosome) × σS)
    (cross_over_func : σC → Chromosome → Chromosome → Chromosome × σC)
    (mutate_func : σM → Chromosome → Chromosome × σM)
    (rank_func : Chromosome → T)
    (sI sI2 : σI) (sS sS2 : σS) (sC sC2 : σC) (sM sM2 : σM)
    (h : sI = sI2 ∧ sS = sS2 ∧ sC = sC2 ∧ sM = sM2) :
    solveFull 5 1 init_func select_func cross_over_func mutate_func rank_func
        sI sS sC sM
      = solveFull 5 1 init_func select_func cross_over_func mutate_func
          rank_func sI2 sS2 sC2 sM2
  ∧ (solveFull 5 1 init_func select_func cross_over_func mutate_func
        rank_func sI sS sC sM).map GAState.trace
      = (solveFull 5 1 init_func select_func cross_over_func mutate_func
          rank_func sI2 sS2 sC2 sM2).map GAState.trace
  ∧ solve 5 1 init_func select_func cross_over_func mutate_func rank_func
        sI sS sC sM
      = solve 5 1 init_func select_func cross_over_func mutate_func rank_func
          sI2 sS2 sC2 sM2 := by
  obtain ⟨h1, h2, h3, h4⟩ := h
  subst h1
  subst h2
  subst h3
  subst h4
  exact ⟨rfl, rfl, rfl⟩

/-- Witness for claim C8 at two identically constructed concrete runs. -/
theorem solve_determinism_witness :
    solveFull 5 1 cInit cSelect cCross cMut cRank () () () ()
      = solveFull 5 1 cInit cSelect cCross cMut cRank () () () ()
  ∧ (solveFull 5 1 cInit cSelect cCross cMut cRank
        () () () ()).map GAState.trace
      = (solveFull 5 1 cInit cSelect cCross cMut cRank
          () () () ()).map GAState.trace
  ∧ solve 5 1 cInit cSelect cCross cMut cRank () () () ()
      = solve 5 1 cInit cSelect cCross cMut cRank () () () () :=
  solve_determinism cInit cSelect cCross cMut cRank () () () () () () () ()
    ⟨rfl, rfl, rfl, rfl⟩

/-- Claim C9: for both RandomSplitCrossOver and RandomMixCrossOver the child
bitset is sized from the first parent alone: the child's length equals
a.size() for all parents, whatever the second parent's length is, so
equality of the parents' lengths is an unchecked precondition decided by the
first argument. -/
theorem child_length_eq_first_parent {σ : Type}
    (intDraw binDraw : σ → Nat × σ) (s : σ) (a b : Chromosome) :
    (RandomSplitCrossOver intDraw binDraw s a b).1.length = a.length
  ∧ (RandomMixCrossOver binDraw s a b).1.length = a.length := by
  constructor
  · simp only [RandomSplitCrossOver]
    by_cases hc : (binDraw (intDraw s).2).1 = 0
    · rw [if_pos hc]
      show (copyFrom b b.length (intDraw s).1
        (copyFrom a (intDraw s).1 0
          (List.replicate a.length false))).length = a.length
      rw [copyFrom_length, copyFrom_length, List.length_replicate]
    · rw [if_neg hc]
      show (copyFrom a a.length (intDraw s).1
        (copyFrom b (intDraw s).1 0
          (List.replicate a.length false))).length = a.length
      rw [copyFrom_length, copyFrom_length, List.length_replicate]
  · simp only [RandomMixCrossOver, mixLoop_length, List.length_replicate]

/-- Claim C10 counterexample: with population_size = 0 and num_iterations = 1
solve does not ask Selection for 2^64 - 1 couples: the freshly initialized
population is empty, the initial top() is undefined per the Population
contract, and the embedded run yields none before Selection is ever invoked
— even though the unsigned couple count does wrap to 2^64 - 1. -/
theorem solve_pop_zero_counterexample :
    solveFull 1 0 cInit cSelect cCross cMut cRank () () () () = none
  ∧ sizeTSub1 0 = SIZE_T_MOD - 1 := by
  constructor
  · rfl
  · decide

/-- Claim C10 (amended): with population_size = 0 the unsigned subtraction
`population_size - 1uL` indeed wraps to 2^64 - 1, but solve never gets to ask
Selection for that many couples: the freshly initialized population is empty,
the initial top() is undefined per the Population contract, and the embedded
run yields none for every choice of operators and every num_iterations. -/
theorem solve_pop_zero_amended {T σI σS σC σM : Type} [LinearOrder T] :
    sizeTSub1 0 = SIZE_T_MOD - 1
  ∧ ∀ (k : Nat) (init_func : σI → Chromosome × σI)
      (select_func : σS → List (Hypothesis T) → Nat →
        List (Chromosome × Chromosome) × σS)
      (cross_over_func : σC → Chromosome → Chromosome → Chromosome × σC)
      (mutate_func : σM → Chromosome → Chromosome × σM)
      (rank_func : Chromosome → T) (sI : σI) (sS : σS) (sC : σC) (sM : σM),
      solveFull k 0 init_func select_func cross_over_func mutate_func
        rank_func sI sS sC sM = none := by
  refine ⟨by decide, ?_⟩
  intro k init_func select_func cross_over_func mutate_func rank_func sI sS
    sC sM
  rfl

end GeneticAlgorithms
